import Mathlib

/-!
Shallow embedding of `sinks/eventbridge/driver.go` from kube-eventer
(the EventBridge sink), together with proofs of the specification's
claims about it.

Modelling conventions:
* Wall-clock instants are `Int` seconds; `time.Parse` of the expiry
  layout is an oracle `String → Option Int` (external library code).
* External collaborators (`utils.ParseRegion`, `utils.ParseAKInfo`,
  `eventbridge.NewClient`, `PutEventsWithOptions`, `json.Marshal`,
  `meta.UnsafeGuessKindToResource`, `uuid.New`) are parameters / fields
  holding their outcome, since only their results flow through this file.
* Go nil pointers are `Option`; a nil-pointer dereference shows up as a
  `none` result of the `Option`-valued models of the dereferencing code.
-/

set_option autoImplicit false

namespace EventBridge

/-- `utils.AKInfo`: the credential returned by the external provider. -/
structure AKInfo where
  accessKeyId : String
  accessKeySecret : String
  securityToken : String
  expiration : String
  deriving Repr, DecidableEq

/-- The configuration handed to `eventbridge.NewClient` (the fields of
`eventbridge.Config` that `newClient` sets). -/
structure EBConfig where
  accessKeyId : String
  accessKeySecret : String
  securityToken : String
  endpoint : String
  deriving Repr, DecidableEq

/-- A transport client; the SDK is external, so the model only records
the configuration the client was built from. -/
structure EBClient where
  config : EBConfig
  deriving Repr, DecidableEq

/-- `eventBridgeSink`: the sink's mutable state plus its immutable
identity. Go nil pointers are `none`. -/
structure EventBridgeSink where
  client : Option EBClient
  akInfo : Option AKInfo
  clusterId : String
  region : String
  accountId : String
  deriving Repr, DecidableEq

/-- `isAkValid`, given a parsed-or-not expiry and the current time.
Mirrors the Go body line by line:

* `time.Parse(layout, akInfo.Expiration)` error ⟹ `false`;
* `t.Before(time.Now())` ⟹ `false`;
* the Go source then evaluates `t.Add(time.Minute * time.Duration(-10))`
  but discards the returned value (`Add` does not mutate `t`), so the
  second `t.Before(time.Now())` test compares the unshifted `t` again. -/
def isAkValidCore (parseTime : String → Option Int) (now : Int)
    (ak : AKInfo) : Bool :=
  match parseTime ak.expiration with
  | none => false
  | some t =>
    if t < now then false
    else
      let _discardedShift := t - 10 * 60
      if t < now then false
      else true

/-- `ebSink.isAkValid()`: reads `ebSink.akInfo.Expiration`; `none` models
the nil-pointer dereference that happens when `akInfo` is nil. -/
def isAkValid (parseTime : String → Option Int) (now : Int)
    (sink : EventBridgeSink) : Option Bool :=
  sink.akInfo.map (isAkValidCore parseTime now)

/-- Does `sub` match the first characters of `s`? (helper for the model
of Go `strings.Contains`). -/
def substrAt : List Char → List Char → Bool
  | [], _ => true
  | _ :: _, [] => false
  | c :: cs, d :: ds => decide (c = d) && substrAt cs ds

/-- Does `sub` occur somewhere in `s`? (model of Go `strings.Contains`). -/
def hasSubstr (sub : List Char) : List Char → Bool
  | [] => substrAt sub []
  | c :: t => substrAt sub (c :: t) || hasSubstr sub t

/-- Go `strings.Contains s sub`. -/
def strContains (s sub : String) : Bool :=
  hasSubstr sub.data s.data

/-- The fields of `v1.ObjectReference` that `createEventSubject` reads
(`Namespace` is a Lean keyword, hence `namespaceName`). -/
structure ObjectReference where
  apiVersion : String
  kind : String
  name : String
  namespaceName : String
  deriving Repr, DecidableEq

/-- `createEventSubject`. `meta.UnsafeGuessKindToResource` is external
k8s machinery, modelled by the oracle `guessResource`, applied to the
reference's APIVersion and Kind (the data `GroupVersionKind` is built
from). -/
def createEventSubject (sink : EventBridgeSink)
    (guessResource : String → String → String) (o : ObjectReference) : String :=
  let resource := guessResource o.apiVersion o.kind
  let versionNameHack :=
    if strContains o.apiVersion "." && !(strContains o.apiVersion "/") then
      o.apiVersion ++ "/versionUnknown"
    else
      o.apiVersion
  "acs:cs:" ++ sink.region ++ ":" ++ sink.accountId ++ ":" ++ sink.clusterId
    ++ "/apis/" ++ versionNameHack ++ "/namespaces/" ++ o.namespaceName
    ++ "/" ++ resource ++ "/" ++ o.name

/-- A `v1.Event` as this sink reads it: the four addressing fields plus
the outcome of `json.Marshal` on the whole (opaque) event. -/
structure K8sEvent where
  name : String
  kind : String
  namespaceName : String
  apiVersion : String
  marshal : Except String (List Nat)
  deriving Repr

/-- `eventbridge.CloudEvent` (the fields `toCloudEvent` sets). -/
structure CloudEvent where
  datacontenttype : String
  data : List Nat
  id : String
  source : String
  time : String
  subject : String
  eventType : String
  extensions : List (String × String)
  deriving Repr, DecidableEq

/-- The envelope `toCloudEvent` builds once `json.Marshal` has
succeeded; `uuid` and `nowStr` stand for `uuid.New().String()` and
`time.Now().Format(time.RFC3339)`. -/
def mkCloudEvent (sink : EventBridgeSink) (guessResource : String → String → String)
    (uuid nowStr : String) (e : K8sEvent) (dataBytes : List Nat) : CloudEvent where
  datacontenttype := "application/json"
  data := dataBytes
  id := uuid
  source := "acs.cs"
  time := nowStr
  subject := createEventSubject sink guessResource
    ⟨e.apiVersion, e.kind, e.name, e.namespaceName⟩
  eventType := "cs:k8s:K8s-event-via-npd"
  extensions := [("aliyuneventbusname", "default")]

/-- `ebSink.toCloudEvent(event)`. -/
def toCloudEvent (sink : EventBridgeSink) (guessResource : String → String → String)
    (uuid nowStr : String) (e : K8sEvent) : Except String CloudEvent :=
  match e.marshal with
  | .error err => .error err
  | .ok dataBytes => .ok (mkCloudEvent sink guessResource uuid nowStr e dataBytes)

def eventbridgeMaxBatchSize : Nat := 16

/-- `int(math.Ceil(float64 n / 16))` (exact in `Nat` for any list length
representable in a float). -/
def batchCount (n : Nat) : Nat :=
  (n + eventbridgeMaxBatchSize - 1) / eventbridgeMaxBatchSize

/-- The slice the inner loop of `exportEventsInBatch` visits for chunk
`i`: indices `i*16 ≤ j < min ((i+1)*16) l.length`. -/
def chunkSlice {α : Type} (l : List α) (i : Nat) : List α :=
  (l.drop (i * eventbridgeMaxBatchSize)).take eventbridgeMaxBatchSize

/-- The inner loop body of `exportEventsInBatch` over one chunk's
(index, event) pairs: translate each event; on error `continue` (drop
it), otherwise append the envelope. `mkId j` / `mkTime j` are the values
`uuid.New` / `time.Now` produce at loop position `j`. -/
def translateEvents (sink : EventBridgeSink) (guessResource : String → String → String)
    (mkId mkTime : Nat → String) (indexed : List (Nat × K8sEvent)) : List CloudEvent :=
  indexed.filterMap fun je =>
    (toCloudEvent sink guessResource (mkId je.1) (mkTime je.1) je.2).toOption

/-- `exportEventsInBatch`, instrumented to return the trace of dispatch
calls: one entry per chunk, recording the dispatched envelope list and
the (logged, ignored) result of `putEvents` on it. -/
def exportEventsInBatch (sink : EventBridgeSink) (guessResource : String → String → String)
    (mkId mkTime : Nat → String) (events : List K8sEvent)
    (putEvents : List CloudEvent → Except String Unit) :
    List (List CloudEvent × Except String Unit) :=
  (List.range (batchCount events.length)).map fun i =>
    let chunk := translateEvents sink guessResource mkId mkTime (chunkSlice events.enum i)
    (chunk, putEvents chunk)

/-- `ExportEvents`: early return on an empty batch, otherwise
`exportEventsInBatch`. The Go function returns nothing; the model
returns the dispatch trace. -/
def exportEvents (sink : EventBridgeSink) (guessResource : String → String → String)
    (mkId mkTime : Nat → String) (events : List K8sEvent)
    (putEvents : List CloudEvent → Except String Unit) :
    List (List CloudEvent × Except String Unit) :=
  if events.length = 0 then []
  else exportEventsInBatch sink guessResource mkId mkTime events putEvents

/-- `fmt.Sprintf(eventBridgeEndpointSchema, ebSink.accountId, ebSink.region)`. -/
def eventBridgeEndpoint (sink : EventBridgeSink) : String :=
  sink.accountId ++ ".eventbridge." ++ sink.region ++ "-vpc.aliyuncs.com"

/-- `ebSink.newClient()`. `parseAKInfo` is the outcome of the external
`utils.ParseAKInfo()` call, `sdkNewClient` of `eventbridge.NewClient`
on the config `newClient` fills in. Returns the Go return value together
with the sink state after the call. -/
def newClient (sink : EventBridgeSink) (parseAKInfo : Except String AKInfo)
    (sdkNewClient : EBConfig → Except String EBClient) :
    Except String EBClient × EventBridgeSink :=
  let endpoint := eventBridgeEndpoint sink
  match parseAKInfo with
  | .error e => (.error e, sink)
  | .ok akInfo =>
    match sdkNewClient ⟨akInfo.accessKeyId, akInfo.accessKeySecret,
        akInfo.securityToken, endpoint⟩ with
    | .error e => (.error e, sink)
    | .ok client =>
      (.ok client, { sink with client := some client, akInfo := some akInfo })

/-- `ebSink.getClient()`. The outer `none` models the nil-pointer
dereference inside `isAkValid` when `client` is non-nil but `akInfo`
is nil (`&&` short-circuits, so `isAkValid` only runs when a client is
cached). -/
def getClient (parseTime : String → Option Int) (now : Int)
    (parseAKInfo : Except String AKInfo)
    (sdkNewClient : EBConfig → Except String EBClient)
    (sink : EventBridgeSink) :
    Option (Except String EBClient × EventBridgeSink) :=
  match sink.client with
  | some c =>
    match isAkValid parseTime now sink with
    | none => none
    | some valid =>
      if valid then some (.ok c, sink)
      else some (newClient sink parseAKInfo sdkNewClient)
  | none => some (newClient sink parseAKInfo sdkNewClient)

/-- `ebSink.putEvents(events)`: get a client (propagating its error),
then `PutEventsWithOptions` with auto-retry, modelled by the oracle
`dispatch`, returning its error. -/
def putEvents (parseTime : String → Option Int) (now : Int)
    (parseAKInfo : Except String AKInfo)
    (sdkNewClient : EBConfig → Except String EBClient)
    (dispatch : EBClient → List CloudEvent → Except String Unit)
    (sink : EventBridgeSink) (events : List CloudEvent) :
    Option (Except String Unit × EventBridgeSink) :=
  match getClient parseTime now parseAKInfo sdkNewClient sink with
  | none => none
  | some (.error e, sink1) => some (.error e, sink1)
  | some (.ok c, sink1) => some (dispatch c events, sink1)

/-- `NewEventBridgeSink(uri)`: `clusterIds` is `uri.Query()["clusterId"]`,
and the two `Except` arguments are the outcomes of the external
`utils.ParseRegion()` / `utils.ParseOwnerAccountId()` calls. -/
def NewEventBridgeSink (clusterIds : List String)
    (parseRegion parseOwnerAccountId : Except String String) :
    Except String EventBridgeSink :=
  match clusterIds with
  | [] => .error "please provide kubernetes cluster id for EventBridge"
  | cid :: _ =>
    match parseRegion with
    | .error e => .error e
    | .ok region =>
      match parseOwnerAccountId with
      | .error e => .error e
      | .ok accountId =>
        .ok { client := none, akInfo := none, clusterId := cid,
              region := region, accountId := accountId }

/-- The nil-safety invariant: a cached client implies a cached
credential. -/
def ClientAkInv (sink : EventBridgeSink) : Prop :=
  sink.client.isSome → sink.akInfo.isSome

/-- Driving `putEvents` over a list of chunks in order, threading the
sink state the way one `ExportEvents` call does; `none` if any chunk's
`putEvents` hits the nil dereference. -/
def exportChunksStateful (parseTime : String → Option Int) (now : Int)
    (parseAKInfo : Except String AKInfo)
    (sdkNewClient : EBConfig → Except String EBClient)
    (dispatch : EBClient → List CloudEvent → Except String Unit) :
    List (List CloudEvent) → EventBridgeSink → Option EventBridgeSink
  | [], sink => some sink
  | c :: rest, sink =>
    match putEvents parseTime now parseAKInfo sdkNewClient dispatch sink c with
    | none => none
    | some (_, sink1) =>
      exportChunksStateful parseTime now parseAKInfo sdkNewClient dispatch rest sink1

/-- The subject grammar exactly as the spec states it, for comparison
with `createEventSubject`. -/
def subjectTemplate (sink : EventBridgeSink)
    (versionSegment resource nspace name : String) : String :=
  "acs:cs:" ++ sink.region ++ ":" ++ sink.accountId ++ ":" ++ sink.clusterId
    ++ "/apis/" ++ versionSegment ++ "/namespaces/" ++ nspace
    ++ "/" ++ resource ++ "/" ++ name

end EventBridge

open EventBridge

/-! Correctness of the `strings.Contains` model with respect to the
mathematical notion of substring occurrence. -/

theorem substrAt_iff (sub s : List Char) :
    substrAt sub s = true ↔ ∃ post, s = sub ++ post := by
  induction sub generalizing s with
  | nil => simp [substrAt]
  | cons c cs ih =>
    cases s with
    | nil => simp [substrAt]
    | cons d ds =>
      simp only [substrAt, Bool.and_eq_true, decide_eq_true_eq, ih]
      constructor
      · rintro ⟨hcd, post, hpost⟩
        exact ⟨post, by rw [← hcd, hpost]; rfl⟩
      · rintro ⟨post, h⟩
        injection h with h1 h2
        exact ⟨h1.symm, post, h2⟩

theorem hasSubstr_iff (sub s : List Char) :
    hasSubstr sub s = true ↔ ∃ pre post, s = pre ++ sub ++ post := by
  induction s with
  | nil =>
    simp only [hasSubstr, substrAt_iff]
    constructor
    · rintro ⟨post, h⟩
      exact ⟨[], post, h⟩
    · rintro ⟨pre, post, h⟩
      rcases List.append_eq_nil.mp h.symm with ⟨h12, hpost⟩
      rcases List.append_eq_nil.mp h12 with ⟨hpre, hsub⟩
      exact ⟨[], by simp [hsub]⟩
  | cons d t ih =>
    simp only [hasSubstr, Bool.or_eq_true, substrAt_iff, ih]
    constructor
    · rintro (⟨post, h⟩ | ⟨pre, post, h⟩)
      · exact ⟨[], post, by simpa using h⟩
      · exact ⟨d :: pre, post, by simp [h]⟩
    · rintro ⟨pre, post, h⟩
      cases pre with
      | nil => exact Or.inl ⟨post, by simpa using h⟩
      | cons p ps =>
        injection h with h1 h2
        exact Or.inr ⟨ps, post, h2⟩

theorem strContains_iff (s sub : String) :
    strContains s sub = true ↔ ∃ pre post, s.data = pre ++ sub.data ++ post :=
  hasSubstr_iff sub.data s.data

/-! Chunking lemmas: the inner-loop slices reassemble the batch. -/

theorem chunkSlice_zero {α : Type} (l : List α) :
    chunkSlice l 0 = l.take eventbridgeMaxBatchSize := by
  simp [chunkSlice]

theorem chunkSlice_succ {α : Type} (l : List α) (i : Nat) :
    chunkSlice l (i + 1) = chunkSlice (l.drop eventbridgeMaxBatchSize) i := by
  unfold chunkSlice
  rw [List.drop_drop]
  congr 2
  ring

theorem chunkSlice_join {α : Type} :
    ∀ (k : Nat) (l : List α), batchCount l.length = k →
      (List.range k).flatMap (chunkSlice l) = l := by
  intro k
  induction k with
  | zero =>
    intro l h
    have hlen : l.length = 0 := by
      unfold batchCount eventbridgeMaxBatchSize at h
      omega
    rw [List.eq_nil_of_length_eq_zero hlen]
    simp
  | succ k ih =>
    intro l h
    have hlen : batchCount (l.drop eventbridgeMaxBatchSize).length = k := by
      unfold batchCount eventbridgeMaxBatchSize at h ⊢
      rw [List.length_drop]
      omega
    rw [List.range_succ_eq_map, List.flatMap_cons, List.flatMap_map, chunkSlice_zero]
    simp only [Function.comp, Nat.succ_eq_add_one, chunkSlice_succ]
    rw [ih (l.drop eventbridgeMaxBatchSize) hlen, List.take_append_drop]

theorem enumFrom_filter_map_snd {α : Type} (q : α → Bool) :
    ∀ (n : Nat) (l : List α),
      ((List.enumFrom n l).filter (fun p => q p.2)).map Prod.snd = l.filter q := by
  intro n l
  induction l generalizing n with
  | nil => rfl
  | cons a t ih =>
    rw [List.enumFrom_cons]
    by_cases hq : q a = true
    · simp [List.filter_cons, hq, ih (n + 1)]
    · simp [List.filter_cons, hq, ih (n + 1)]

theorem mem_chunkSlice {α : Type} {l : List α} {i : Nat} {a : α}
    (h : a ∈ chunkSlice l i) : a ∈ l :=
  List.drop_subset _ _ (List.take_subset _ _ h)

theorem snd_mem_of_mem_enum {α : Type} {l : List α} {p : Nat × α}
    (h : p ∈ l.enum) : p.2 ∈ l := by
  rcases p with ⟨j, e⟩
  rcases List.mem_enum h with ⟨hlt, hx⟩
  rw [show (j, e).2 = e from rfl, hx]
  exact List.getElem_mem hlt

theorem toCloudEvent_toOption_none (sink : EventBridgeSink)
    (gR : String → String → String) (uuid nowStr : String) (e : K8sEvent)
    (h : e.marshal.toOption = none) :
    (toCloudEvent sink gR uuid nowStr e).toOption = none := by
  cases hm : e.marshal with
  | error err => simp [toCloudEvent, hm, Except.toOption]
  | ok b =>
    rw [hm] at h
    simp [Except.toOption] at h

/-- C1: the claim says `isAkValid` accepts a credential iff
`now < expiry` and `now < expiry - 10min`, so a credential expiring
5 minutes in the future must be rejected. The code discards the result
of the 10-minute shift, so that credential is accepted: with `now = 0`
and a parsed expiry of 300 seconds the check returns `true`, though
`now < expiry - 10min` fails. -/
theorem isAkValid_accepts_five_minute_credential :
    isAkValidCore (fun _ => some 300) 0
      ⟨"id", "secret", "token", "2026-01-01T00:05:00Z"⟩ = true
    ∧ ¬ ((0 : Int) < 300 - 10 * 60) := by
  constructor
  · rfl
  · decide

/-- C7: an expiry string the time parser rejects makes the freshness
check return `false` (the check is a total `Bool`-valued function, so it
can neither raise nor return an error). -/
theorem isAkValid_unparsable_expiry_invalid
    (parseTime : String → Option Int) (now : Int) (ak : AKInfo)
    (h : parseTime ak.expiration = none) :
    isAkValidCore parseTime now ak = false := by
  unfold isAkValidCore
  rw [h]

/-- Witness for C7 at a parser that rejects everything. -/
theorem isAkValid_unparsable_expiry_invalid_witness :
    isAkValidCore (fun _ => none) 17 ⟨"a", "b", "c", "not-a-time"⟩ = false :=
  isAkValid_unparsable_expiry_invalid (fun _ => none) 17
    ⟨"a", "b", "c", "not-a-time"⟩ rfl

/-- C2: for a batch of `N` events, `ExportEvents` dispatches exactly
`ceil(N/16)` chunks (so zero dispatch calls when `N = 0`), in chunk-index
order; each dispatched chunk holds at most 16 envelopes, the `i`-th one
being the translation of the contiguous slice `[i*16, (i+1)*16)` of the
batch; and the concatenation, over chunks in order, of each chunk's
successfully translated source events equals the original batch filtered
to translatable events — original relative order preserved. -/
theorem exportEvents_chunking (sink : EventBridgeSink)
    (gR : String → String → String) (mkId mkTime : Nat → String)
    (events : List K8sEvent) (pe : List CloudEvent → Except String Unit) :
    (exportEvents sink gR mkId mkTime events pe).length = batchCount events.length
    ∧ (exportEvents sink gR mkId mkTime events pe).map Prod.fst
        = (List.range (batchCount events.length)).map
            (fun i => translateEvents sink gR mkId mkTime (chunkSlice events.enum i))
    ∧ (∀ p ∈ exportEvents sink gR mkId mkTime events pe,
        p.1.length ≤ eventbridgeMaxBatchSize)
    ∧ (List.range (batchCount events.length)).flatMap
        (fun i => ((chunkSlice events.enum i).filter
            (fun je => je.2.marshal.toOption.isSome)).map Prod.snd)
        = events.filter (fun e => e.marshal.toOption.isSome) := by
  have hexp : exportEvents sink gR mkId mkTime events pe
      = exportEventsInBatch sink gR mkId mkTime events pe := by
    by_cases h : events.length = 0
    · rw [List.eq_nil_of_length_eq_zero h]
      simp [exportEvents, exportEventsInBatch, batchCount, eventbridgeMaxBatchSize]
    · simp [exportEvents, h]
  refine ⟨?_, ?_, ?_, ?_⟩
  · rw [hexp]
    simp [exportEventsInBatch]
  · rw [hexp]
    simp [exportEventsInBatch]
  · rw [hexp]
    intro p hp
    rw [exportEventsInBatch] at hp
    rcases List.mem_map.mp hp with ⟨i, _, hpe⟩
    rw [← hpe]
    calc (translateEvents sink gR mkId mkTime (chunkSlice events.enum i)).length
        ≤ (chunkSlice events.enum i).length := List.length_filterMap_le _ _
      _ ≤ eventbridgeMaxBatchSize := by
          rw [chunkSlice, List.length_take]
          exact inf_le_left
  · have hjoin : (List.range (batchCount events.length)).flatMap (chunkSlice events.enum)
        = events.enum :=
      chunkSlice_join (batchCount events.length) events.enum (by rw [List.enum_length])
    calc (List.range (batchCount events.length)).flatMap
          (fun i => ((chunkSlice events.enum i).filter
              (fun je => je.2.marshal.toOption.isSome)).map Prod.snd)
        = (((List.range (batchCount events.length)).flatMap
              (chunkSlice events.enum)).filter
                (fun je => je.2.marshal.toOption.isSome)).map Prod.snd := by
          rw [List.filter_flatMap, List.map_flatMap]
      _ = (events.enum.filter (fun je => je.2.marshal.toOption.isSome)).map Prod.snd := by
          rw [hjoin]
      _ = events.filter (fun e => e.marshal.toOption.isSome) :=
          enumFrom_filter_map_snd (fun e => e.marshal.toOption.isSome) 0 events

/-- Witness for C2 on a one-event batch: the single dispatched chunk has
at most 16 envelopes. -/
theorem exportEvents_chunking_witness :
    (([mkCloudEvent ⟨none, none, "c", "r", "a"⟩ (fun _ _ => "pods") "id" "t"
        ⟨"n", "K", "ns", "v1", Except.ok [1]⟩ [1]],
      (Except.ok () : Except String Unit)) :
        List CloudEvent × Except String Unit).1.length ≤ eventbridgeMaxBatchSize :=
  (exportEvents_chunking ⟨none, none, "c", "r", "a"⟩ (fun _ _ => "pods")
      (fun _ => "id") (fun _ => "t") [⟨"n", "K", "ns", "v1", Except.ok [1]⟩]
      (fun _ => Except.ok ())).2.2.1 _ (List.Mem.head _)

/-- C3: the export call is a total function of the batch and the
dispatch oracle (it yields a trace, never an error); the sequence of
dispatched chunks does not depend on the dispatch outcomes (a failing
chunk never suppresses a later chunk's dispatch attempt), and every
chunk of the trace was actually attempted: its recorded outcome is the
dispatch oracle applied to it. -/
theorem exportEvents_never_fails (sink : EventBridgeSink)
    (gR : String → String → String) (mkId mkTime : Nat → String)
    (events : List K8sEvent) (pe1 pe2 : List CloudEvent → Except String Unit) :
    (exportEvents sink gR mkId mkTime events pe1).map Prod.fst
      = (exportEvents sink gR mkId mkTime events pe2).map Prod.fst
    ∧ ∀ p ∈ exportEvents sink gR mkId mkTime events pe1, p.2 = pe1 p.1 := by
  constructor
  · by_cases h : events.length = 0
    · simp [exportEvents, h]
    · simp only [exportEvents, if_neg h, exportEventsInBatch, List.map_map]
      rfl
  · intro p hp
    by_cases h : events.length = 0
    · simp only [exportEvents, if_pos h] at hp
      cases hp
    · simp only [exportEvents, if_neg h, exportEventsInBatch] at hp
      rcases List.mem_map.mp hp with ⟨i, _, hpe⟩
      rw [← hpe]

/-- Witness for C3: on a one-event batch with an always-failing dispatch
oracle, the recorded outcome of the dispatched chunk is that failure. -/
theorem exportEvents_never_fails_witness :
    (([mkCloudEvent ⟨none, none, "c", "r", "a"⟩ (fun _ _ => "pods") "id" "t"
        ⟨"n", "K", "ns", "v1", Except.ok [1]⟩ [1]],
      (Except.error "down" : Except String Unit)) :
        List CloudEvent × Except String Unit).2
      = (fun _ => (Except.error "down" : Except String Unit))
          ([mkCloudEvent ⟨none, none, "c", "r", "a"⟩ (fun _ _ => "pods") "id" "t"
              ⟨"n", "K", "ns", "v1", Except.ok [1]⟩ [1]]) :=
  (exportEvents_never_fails ⟨none, none, "c", "r", "a"⟩ (fun _ _ => "pods")
      (fun _ => "id") (fun _ => "t") [⟨"n", "K", "ns", "v1", Except.ok [1]⟩]
      (fun _ => Except.error "down") (fun _ => Except.ok ())).2 _ (List.Mem.head _)

/-- C4: inside a chunk each event is translated independently: an event
whose `json.Marshal` fails is dropped while every other event of the
chunk is still translated and included in place; on a 3-event chunk
whose middle event fails translation the dispatched chunk is exactly the
two envelopes of the other events; and when every event of the batch
fails translation, one (empty) chunk per chunk slot is still
dispatched. -/
theorem translate_failure_isolation (sink : EventBridgeSink)
    (gR : String → String → String) (mkId mkTime : Nat → String) :
    (∀ (l1 l2 : List (Nat × K8sEvent)) (je : Nat × K8sEvent) (err : String),
        je.2.marshal = Except.error err →
        translateEvents sink gR mkId mkTime (l1 ++ je :: l2)
          = translateEvents sink gR mkId mkTime l1
            ++ translateEvents sink gR mkId mkTime l2)
    ∧ (∀ (l1 l2 : List (Nat × K8sEvent)) (je : Nat × K8sEvent) (bytes : List Nat),
        je.2.marshal = Except.ok bytes →
        translateEvents sink gR mkId mkTime (l1 ++ je :: l2)
          = translateEvents sink gR mkId mkTime l1
            ++ mkCloudEvent sink gR (mkId je.1) (mkTime je.1) je.2 bytes
              :: translateEvents sink gR mkId mkTime l2)
    ∧ (∀ (e1 e2 e3 : K8sEvent) (b1 b3 : List Nat) (err : String)
        (pe : List CloudEvent → Except String Unit),
        e1.marshal = Except.ok b1 → e2.marshal = Except.error err →
        e3.marshal = Except.ok b3 →
        (exportEventsInBatch sink gR mkId mkTime [e1, e2, e3] pe).map Prod.fst
          = [[mkCloudEvent sink gR (mkId 0) (mkTime 0) e1 b1,
              mkCloudEvent sink gR (mkId 2) (mkTime 2) e3 b3]])
    ∧ (∀ (events : List K8sEvent) (pe : List CloudEvent → Except String Unit),
        (∀ e ∈ events, e.marshal.toOption = none) →
        (exportEventsInBatch sink gR mkId mkTime events pe).map Prod.fst
          = (List.range (batchCount events.length)).map
              (fun _ => ([] : List CloudEvent))) := by
  refine ⟨?_, ?_, ?_, ?_⟩
  · intro l1 l2 je err hm
    simp [translateEvents, List.filterMap_append, List.filterMap_cons,
      toCloudEvent, hm, Except.toOption]
  · intro l1 l2 je bytes hm
    simp [translateEvents, List.filterMap_append, List.filterMap_cons,
      toCloudEvent, hm, Except.toOption]
  · intro e1 e2 e3 b1 b3 err pe h1 h2 h3
    have hbc : batchCount 3 = 1 := rfl
    have hrange : List.range 1 = [0] := rfl
    have hchunk : chunkSlice ([e1, e2, e3].enum) 0 = [(0, e1), (1, e2), (2, e3)] := by
      simp [chunkSlice, eventbridgeMaxBatchSize, List.enum, List.enumFrom]
    simp [exportEventsInBatch, hbc, hrange, hchunk, translateEvents,
      List.filterMap_cons, toCloudEvent, h1, h2, h3, Except.toOption]
  · intro events pe hall
    simp only [exportEventsInBatch, List.map_map]
    apply List.map_congr_left
    intro i _
    rw [Function.comp]
    show translateEvents sink gR mkId mkTime (chunkSlice events.enum i) = []
    rw [translateEvents, List.filterMap_eq_nil_iff]
    intro je hje
    exact toCloudEvent_toOption_none sink gR _ _ je.2
      (hall je.2 (snd_mem_of_mem_enum (mem_chunkSlice hje)))

/-- Witness for C4: a concrete 3-event batch whose middle event fails
`json.Marshal` dispatches one chunk holding exactly the two surviving
envelopes. -/
theorem translate_failure_isolation_witness :
    (exportEventsInBatch ⟨none, none, "c", "r", "a"⟩ (fun _ _ => "pods")
        (fun j => toString j) (fun _ => "t")
        [⟨"n1", "K", "ns", "v1", Except.ok [1]⟩,
         ⟨"n2", "K", "ns", "v1", Except.error "unserializable"⟩,
         ⟨"n3", "K", "ns", "v1", Except.ok [3]⟩]
        (fun _ => Except.ok ())).map Prod.fst
      = [[mkCloudEvent ⟨none, none, "c", "r", "a"⟩ (fun _ _ => "pods")
            (toString 0) "t" ⟨"n1", "K", "ns", "v1", Except.ok [1]⟩ [1],
          mkCloudEvent ⟨none, none, "c", "r", "a"⟩ (fun _ _ => "pods")
            (toString 2) "t" ⟨"n3", "K", "ns", "v1", Except.ok [3]⟩ [3]]] :=
  (translate_failure_isolation ⟨none, none, "c", "r", "a"⟩ (fun _ _ => "pods")
      (fun j => toString j) (fun _ => "t")).2.2.1
    ⟨"n1", "K", "ns", "v1", Except.ok [1]⟩
    ⟨"n2", "K", "ns", "v1", Except.error "unserializable"⟩
    ⟨"n3", "K", "ns", "v1", Except.ok [3]⟩
    [1] [3] "unserializable" (fun _ => Except.ok ()) rfl rfl rfl

/-- C5: the envelope subject produced by `createEventSubject` is
`acs:cs:{region}:{account}:{clusterId}/apis/{seg}/namespaces/{namespace}/{resource}/{name}`
where the version segment `seg` is the APIVersion with a literal
`/versionUnknown` suffix exactly when the APIVersion contains a `.` and
does not contain a `/` (occurrence stated as genuine substring
decomposition, independent of the code's `strings.Contains` model). -/
theorem createEventSubject_format (sink : EventBridgeSink)
    (gR : String → String → String) (o : ObjectReference) :
    ((∃ pre post, o.apiVersion.data = pre ++ ".".data ++ post)
        ∧ ¬ (∃ pre post, o.apiVersion.data = pre ++ "/".data ++ post) →
      createEventSubject sink gR o
        = subjectTemplate sink (o.apiVersion ++ "/versionUnknown")
            (gR o.apiVersion o.kind) o.namespaceName o.name)
    ∧ (¬ (∃ pre post, o.apiVersion.data = pre ++ ".".data ++ post)
        ∨ (∃ pre post, o.apiVersion.data = pre ++ "/".data ++ post) →
      createEventSubject sink gR o
        = subjectTemplate sink o.apiVersion
            (gR o.apiVersion o.kind) o.namespaceName o.name) := by
  constructor
  · rintro ⟨hdot, hslash⟩
    have h1 : strContains o.apiVersion "." = true := (strContains_iff _ _).mpr hdot
    have h2 : strContains o.apiVersion "/" = false := by
      cases h : strContains o.apiVersion "/" with
      | false => rfl
      | true => exact absurd ((strContains_iff _ _).mp h) hslash
    simp [createEventSubject, subjectTemplate, h1, h2]
  · intro hmiss
    have hcond : (strContains o.apiVersion "." && !strContains o.apiVersion "/") = false := by
      rcases hmiss with hnd | hs
      · have h1 : strContains o.apiVersion "." = false := by
          cases h : strContains o.apiVersion "." with
          | false => rfl
          | true => exact absurd ((strContains_iff _ _).mp h) hnd
        simp [h1]
      · have h2 : strContains o.apiVersion "/" = true := (strContains_iff _ _).mpr hs
        simp [h2]
    simp [createEventSubject, subjectTemplate, hcond]

/-- Witness for C5 on the spec's three vectors: `foo.bar` gains the
`/versionUnknown` suffix, `v1` and `apps/v1` pass through unchanged. -/
theorem createEventSubject_format_witness :
    createEventSubject ⟨none, none, "cid", "reg", "acc"⟩ (fun _ _ => "pods")
        ⟨"foo.bar", "Pod", "mypod", "ns1"⟩
      = "acs:cs:reg:acc:cid/apis/foo.bar/versionUnknown/namespaces/ns1/pods/mypod"
    ∧ createEventSubject ⟨none, none, "cid", "reg", "acc"⟩ (fun _ _ => "pods")
        ⟨"v1", "Pod", "mypod", "ns1"⟩
      = "acs:cs:reg:acc:cid/apis/v1/namespaces/ns1/pods/mypod"
    ∧ createEventSubject ⟨none, none, "cid", "reg", "acc"⟩ (fun _ _ => "deployments")
        ⟨"apps/v1", "Deployment", "d1", "ns1"⟩
      = "acs:cs:reg:acc:cid/apis/apps/v1/namespaces/ns1/deployments/d1" := by
  refine ⟨?_, ?_, ?_⟩
  · exact ((createEventSubject_format ⟨none, none, "cid", "reg", "acc"⟩
        (fun _ _ => "pods") ⟨"foo.bar", "Pod", "mypod", "ns1"⟩).1
      ⟨⟨"foo".data, "bar".data, rfl⟩,
        fun hs => absurd ((strContains_iff "foo.bar" "/").mpr hs) (by decide)⟩).trans
      (by decide)
  · exact ((createEventSubject_format ⟨none, none, "cid", "reg", "acc"⟩
        (fun _ _ => "pods") ⟨"v1", "Pod", "mypod", "ns1"⟩).2
      (Or.inl fun hd => absurd ((strContains_iff "v1" ".").mpr hd) (by decide))).trans
      (by decide)
  · exact ((createEventSubject_format ⟨none, none, "cid", "reg", "acc"⟩
        (fun _ _ => "deployments") ⟨"apps/v1", "Deployment", "d1", "ns1"⟩).2
      (Or.inr ⟨"apps".data, "v1".data, rfl⟩)).trans
      (by decide)

/-! Invariant helpers for the client lifecycle. -/

theorem newClient_inv (sink : EventBridgeSink) (pa : Except String AKInfo)
    (sdk : EBConfig → Except String EBClient) (h : ClientAkInv sink) :
    ClientAkInv (newClient sink pa sdk).2 := by
  cases pa with
  | error e => simpa [newClient] using h
  | ok ak =>
    cases hs : sdk ⟨ak.accessKeyId, ak.accessKeySecret, ak.securityToken,
        eventBridgeEndpoint sink⟩ with
    | error e => simpa [newClient, hs] using h
    | ok c => simp [newClient, hs, ClientAkInv]

theorem getClient_total (pt : String → Option Int) (now : Int)
    (pa : Except String AKInfo) (sdk : EBConfig → Except String EBClient)
    (sink : EventBridgeSink) (h : ClientAkInv sink) :
    ∃ r, getClient pt now pa sdk sink = some r ∧ ClientAkInv r.2 := by
  cases hc : sink.client with
  | none =>
    exact ⟨newClient sink pa sdk, by simp [getClient, hc], newClient_inv _ _ _ h⟩
  | some c =>
    have hak : sink.akInfo.isSome := h (by simp [hc])
    rcases Option.isSome_iff_exists.mp hak with ⟨ak, hak2⟩
    by_cases hv : isAkValidCore pt now ak = true
    · exact ⟨(Except.ok c, sink), by simp [getClient, hc, isAkValid, hak2, hv], h⟩
    · have hv2 : isAkValidCore pt now ak = false := by
        cases hvv : isAkValidCore pt now ak with
        | false => rfl
        | true => exact absurd hvv hv
      exact ⟨newClient sink pa sdk,
        by simp [getClient, hc, isAkValid, hak2, hv2], newClient_inv _ _ _ h⟩

theorem putEvents_total (pt : String → Option Int) (now : Int)
    (pa : Except String AKInfo) (sdk : EBConfig → Except String EBClient)
    (dispatch : EBClient → List CloudEvent → Except String Unit)
    (sink : EventBridgeSink) (evs : List CloudEvent) (h : ClientAkInv sink) :
    ∃ r, putEvents pt now pa sdk dispatch sink evs = some r ∧ ClientAkInv r.2 := by
  rcases getClient_total pt now pa sdk sink h with ⟨⟨res, sink1⟩, hg, hinv⟩
  cases res with
  | error e => exact ⟨(Except.error e, sink1), by simp [putEvents, hg], hinv⟩
  | ok c => exact ⟨(dispatch c evs, sink1), by simp [putEvents, hg], hinv⟩

theorem exportChunksStateful_total (pt : String → Option Int) (now : Int)
    (pa : Except String AKInfo) (sdk : EBConfig → Except String EBClient)
    (dispatch : EBClient → List CloudEvent → Except String Unit) :
    ∀ (chunks : List (List CloudEvent)) (sink : EventBridgeSink),
      ClientAkInv sink →
      ∃ s1, exportChunksStateful pt now pa sdk dispatch chunks sink = some s1
        ∧ ClientAkInv s1 := by
  intro chunks
  induction chunks with
  | nil =>
    intro sink h
    exact ⟨sink, rfl, h⟩
  | cons c rest ih =>
    intro sink h
    rcases putEvents_total pt now pa sdk dispatch sink c h with ⟨⟨res, sink1⟩, hp, hinv⟩
    rcases ih sink1 hinv with ⟨s2, hrec, hinv2⟩
    exact ⟨s2, by simp [exportChunksStateful, hp, hrec], hinv2⟩

/-- C9: a failing credential fetch or a failing SDK client constructor
makes `newClient` return that error with the sink state (in particular
its cached client and credential) exactly as before; the two cache
fields are only written together, after both steps succeeded. -/
theorem newClient_atomic_update (sink : EventBridgeSink)
    (pa : Except String AKInfo) (sdk : EBConfig → Except String EBClient) :
    (∀ e, pa = Except.error e → newClient sink pa sdk = (Except.error e, sink))
    ∧ (∀ ak e, pa = Except.ok ak →
        sdk ⟨ak.accessKeyId, ak.accessKeySecret, ak.securityToken,
            eventBridgeEndpoint sink⟩ = Except.error e →
        newClient sink pa sdk = (Except.error e, sink))
    ∧ (∀ ak c, pa = Except.ok ak →
        sdk ⟨ak.accessKeyId, ak.accessKeySecret, ak.securityToken,
            eventBridgeEndpoint sink⟩ = Except.ok c →
        newClient sink pa sdk
          = (Except.ok c, { sink with client := some c, akInfo := some ak })) := by
  refine ⟨?_, ?_, ?_⟩
  · intro e he
    subst he
    simp [newClient]
  · intro ak e hpa hs
    subst hpa
    simp [newClient, hs]
  · intro ak c hpa hs
    subst hpa
    simp [newClient, hs]

/-- Witness for C9: a failing fetch leaves a concrete sink untouched. -/
theorem newClient_atomic_update_witness :
    newClient ⟨none, none, "c", "r", "a"⟩ (Except.error "fetch failed")
        (fun _ => Except.error "unused")
      = (Except.error "fetch failed", ⟨none, none, "c", "r", "a"⟩) :=
  (newClient_atomic_update ⟨none, none, "c", "r", "a"⟩ (Except.error "fetch failed")
      (fun _ => Except.error "unused")).1 "fetch failed" rfl

/-- C6: `getClient` returns the cached client (state untouched) when one
is cached and its stored credential passes the freshness check; when no
client is cached, or the stored credential fails the check, the call is
`newClient`: a fetch error propagates with the state unchanged, and on
success the returned client is bound to the endpoint
`{accountId}.eventbridge.{region}-vpc.aliyuncs.com` and both cache
fields are replaced. -/
theorem getClient_cache_policy (pt : String → Option Int) (now : Int)
    (pa : Except String AKInfo) (sdk : EBConfig → Except String EBClient)
    (sink : EventBridgeSink) :
    (∀ c ak, sink.client = some c → sink.akInfo = some ak →
        isAkValidCore pt now ak = true →
        getClient pt now pa sdk sink = some (Except.ok c, sink))
    ∧ (sink.client = none →
        getClient pt now pa sdk sink = some (newClient sink pa sdk))
    ∧ (∀ c ak, sink.client = some c → sink.akInfo = some ak →
        isAkValidCore pt now ak = false →
        getClient pt now pa sdk sink = some (newClient sink pa sdk))
    ∧ (∀ e, sink.client = none → pa = Except.error e →
        getClient pt now pa sdk sink = some (Except.error e, sink))
    ∧ (∀ ak c, sink.client = none → pa = Except.ok ak →
        sdk ⟨ak.accessKeyId, ak.accessKeySecret, ak.securityToken,
            sink.accountId ++ ".eventbridge." ++ sink.region ++ "-vpc.aliyuncs.com"⟩
          = Except.ok c →
        getClient pt now pa sdk sink
          = some (Except.ok c, { sink with client := some c, akInfo := some ak })) := by
  refine ⟨?_, ?_, ?_, ?_, ?_⟩
  · intro c ak hc hak hv
    simp [getClient, hc, isAkValid, hak, hv]
  · intro hc
    simp [getClient, hc]
  · intro c ak hc hak hv
    simp [getClient, hc, isAkValid, hak, hv]
  · intro e hc hpa
    subst hpa
    simp [getClient, hc, newClient]
  · intro ak c hc hpa hs
    subst hpa
    have hs2 : sdk ⟨ak.accessKeyId, ak.accessKeySecret, ak.securityToken,
        eventBridgeEndpoint sink⟩ = Except.ok c := hs
    simp [getClient, hc, newClient, hs2]

/-- Witness for C6: with a cached client whose credential parses to a
far-future expiry, `getClient` returns the cached client unchanged. -/
theorem getClient_cache_policy_witness :
    getClient (fun _ => some 10000) 0 (Except.error "unused")
        (fun _ => Except.error "unused")
        ⟨some ⟨⟨"i", "s", "t", "e"⟩⟩, some ⟨"i", "s", "t", "2030-01-01T00:00:00Z"⟩,
          "c", "r", "a"⟩
      = some (Except.ok ⟨⟨"i", "s", "t", "e"⟩⟩,
          ⟨some ⟨⟨"i", "s", "t", "e"⟩⟩, some ⟨"i", "s", "t", "2030-01-01T00:00:00Z"⟩,
            "c", "r", "a"⟩) :=
  (getClient_cache_policy (fun _ => some 10000) 0 (Except.error "unused")
      (fun _ => Except.error "unused")
      ⟨some ⟨⟨"i", "s", "t", "e"⟩⟩, some ⟨"i", "s", "t", "2030-01-01T00:00:00Z"⟩,
        "c", "r", "a"⟩).1
    ⟨⟨"i", "s", "t", "e"⟩⟩ ⟨"i", "s", "t", "2030-01-01T00:00:00Z"⟩ rfl rfl rfl

/-- C8: sink construction fails when the cluster id is absent from the
URI query, and when the region or account-id resolver fails; when all
three succeed the constructed sink carries exactly the given cluster id
and the resolved region and account id (and empty caches). -/
theorem newEventBridgeSink_config (clusterIds : List String)
    (pr pa : Except String String) :
    (clusterIds = [] →
        NewEventBridgeSink clusterIds pr pa
          = Except.error "please provide kubernetes cluster id for EventBridge")
    ∧ (∀ e, pr = Except.error e →
        ∃ e2, NewEventBridgeSink clusterIds pr pa = Except.error e2)
    ∧ (∀ e, pa = Except.error e →
        ∃ e2, NewEventBridgeSink clusterIds pr pa = Except.error e2)
    ∧ (∀ cid rest r a, clusterIds = cid :: rest →
        pr = Except.ok r → pa = Except.ok a →
        NewEventBridgeSink clusterIds pr pa
          = Except.ok ⟨none, none, cid, r, a⟩) := by
  refine ⟨?_, ?_, ?_, ?_⟩
  · intro h
    subst h
    rfl
  · intro e he
    subst he
    cases clusterIds with
    | nil => exact ⟨_, rfl⟩
    | cons cid rest => exact ⟨e, rfl⟩
  · intro e he
    subst he
    cases clusterIds with
    | nil => exact ⟨_, rfl⟩
    | cons cid rest =>
      cases pr with
      | error e2 => exact ⟨e2, rfl⟩
      | ok r => exact ⟨e, rfl⟩
  · intro cid rest r a hc hr ha
    subst hc
    subst hr
    subst ha
    rfl

/-- Witness for C8: a fully resolved construction stores cluster id,
region and account id. -/
theorem newEventBridgeSink_config_witness :
    NewEventBridgeSink ["cluster-1"] (Except.ok "cn-hangzhou") (Except.ok "12345")
      = Except.ok ⟨none, none, "cluster-1", "cn-hangzhou", "12345"⟩ :=
  (newEventBridgeSink_config ["cluster-1"] (Except.ok "cn-hangzhou")
      (Except.ok "12345")).2.2.2 "cluster-1" [] "cn-hangzhou" "12345" rfl rfl rfl

/-- C10: construction establishes the invariant "cached client present →
cached credential present"; `newClient`, `getClient`, `putEvents` and a
whole chunked export preserve it; and under it `getClient`, `putEvents`
and the export never hit the nil-credential dereference inside
`isAkValid` (their crash-aware models always return `some`). -/
theorem nil_safety_invariant (pt : String → Option Int) (now : Int)
    (pa : Except String AKInfo) (sdk : EBConfig → Except String EBClient)
    (dispatch : EBClient → List CloudEvent → Except String Unit) :
    (∀ clusterIds pr pacc sink,
        NewEventBridgeSink clusterIds pr pacc = Except.ok sink → ClientAkInv sink)
    ∧ (∀ sink, ClientAkInv sink → ClientAkInv (newClient sink pa sdk).2)
    ∧ (∀ sink, ClientAkInv sink →
        ∃ r, getClient pt now pa sdk sink = some r ∧ ClientAkInv r.2)
    ∧ (∀ sink evs, ClientAkInv sink →
        ∃ r, putEvents pt now pa sdk dispatch sink evs = some r ∧ ClientAkInv r.2)
    ∧ (∀ chunks sink, ClientAkInv sink →
        ∃ s1, exportChunksStateful pt now pa sdk dispatch chunks sink = some s1
          ∧ ClientAkInv s1) := by
  refine ⟨?_, ?_, ?_, ?_, ?_⟩
  · intro clusterIds pr pacc sink h
    cases clusterIds with
    | nil => simp [NewEventBridgeSink] at h
    | cons cid rest =>
      cases pr with
      | error e => simp [NewEventBridgeSink] at h
      | ok r =>
        cases pacc with
        | error e => simp [NewEventBridgeSink] at h
        | ok a =>
          simp only [NewEventBridgeSink, Except.ok.injEq] at h
          rw [← h]
          intro hc
          simp at hc
  · intro sink h
    exact newClient_inv sink pa sdk h
  · intro sink h
    exact getClient_total pt now pa sdk sink h
  · intro sink evs h
    exact putEvents_total pt now pa sdk dispatch sink evs h
  · intro chunks sink h
    exact exportChunksStateful_total pt now pa sdk dispatch chunks sink h

/-- Witness for C10: the freshly constructed sink satisfies the
invariant. -/
theorem nil_safety_invariant_witness :
    ClientAkInv ⟨none, none, "w", "wr", "wa"⟩ :=
  (nil_safety_invariant (fun _ => none) 0 (Except.error "unused")
      (fun _ => Except.error "unused") (fun _ _ => Except.ok ())).1
    ["w"] (Except.ok "wr") (Except.ok "wa") ⟨none, none, "w", "wr", "wa"⟩ rfl
